import Mathlib

/-!
Verification of the `sim` app of the restaurant repository: test factories
(`sim/factories.py`), URL configuration (`sim/urls.py`) and the CRUD views
exercised by `sim/tests/test_views.py`.  Python strings are modelled as
`String` (lists of characters), Python `str(n)` for a natural number as its
decimal digit string, `decimal.Decimal` applied to an integer as an exact
coefficient/exponent pair, and the randomness drawn from the faker library
as an explicit seed argument.
-/

/-- The character of a single decimal digit, as produced by Python string
formatting: digit `d` becomes the character with code `48 + d`. -/
def digitChar (d : Nat) : Char := Char.ofNat (48 + d)

/-- Decimal digit string of a natural number, most significant digit first:
the model of Python `str(n)` (and of an f-string interpolation of `n`). -/
def natToDigits (n : Nat) : List Char :=
  if _h : n < 10 then [digitChar n]
  else natToDigits (n / 10) ++ [digitChar (n % 10)]
termination_by n
decreasing_by exact Nat.div_lt_self (by omega) (by omega)

/-- Numeric value of a digit character. -/
def digitVal (c : Char) : Nat := c.toNat - 48

/-- Reads a digit list back into a number, accumulator style. -/
def digitsToNatAux (acc : Nat) : List Char → Nat
  | [] => acc
  | c :: cs => digitsToNatAux (acc * 10 + digitVal c) cs

/-- Reads a decimal digit list back into a natural number: the model of
Python `int(s)` on a digit string. -/
def digitsToNat (cs : List Char) : Nat := digitsToNatAux 0 cs

/-- Model of Python `str(n)` as a `String`. -/
def natToStr (n : Nat) : String := String.mk (natToDigits n)

/-- Restaurant record, fields as in the data model (`name`,
`address_first_line`, `phone_number`, all strings). -/
structure Restaurant where
  name : String
  address_first_line : String
  phone_number : String
deriving DecidableEq

/-- Exact value of Python `decimal.Decimal` as constructed in
`factories.py`: `Decimal(k)` for an integer `k` is the decimal with
coefficient `k` and exponent `0`. -/
structure PyDecimal where
  coeff : Int
  exp : Int
deriving DecidableEq

/-- `Decimal(k)` for a natural number `k`. -/
def PyDecimal.ofNat (k : Nat) : PyDecimal := ⟨k, 0⟩

/-- Model of faker's `random_number(digits)`: a uniformly random integer
with at most `digits` digits, i.e. in `[0, 10 ^ digits)`; the randomness
source is made explicit as a `seed` argument. -/
def fakeRandomNumber (digits seed : Nat) : Nat := seed % 10 ^ digits

/-- Value held by the `restaurant` attribute of a built Dish: either an
actual Restaurant record, or the `Restaurant` model class object itself.
The line `restaurant = Restaurant` in `DishFactory` stores the class
object, not a record. -/
inductive RestaurantAttr where
  | record (r : Restaurant)
  | modelClass
deriving DecidableEq

/-- Dish record: `name`, `price` and the `restaurant` attribute as the
factory fills it. -/
structure Dish where
  name : String
  price : PyDecimal
  restaurant : RestaurantAttr
deriving DecidableEq

/-- Ingredient record: `name` and `unit_price`. -/
structure Ingredient where
  name : String
  unit_price : PyDecimal
deriving DecidableEq

/-- Class-definition-time state of `RestaurantFactory`: in `factories.py`
the lines `address_first_line = fake.address()` and
`phone_number = fake.phone_number()` run once, when the class body is
evaluated at import, so the two resulting strings are fixed attributes of
the class; only `name = factory.Sequence(...)` is re-evaluated per
instance. -/
structure RestaurantFactoryClass where
  address_first_line : String
  phone_number : String
deriving DecidableEq

/-- Evaluation of the `RestaurantFactory` class body, given the two values
returned by the faker calls at import time. -/
def RestaurantFactory.init (fakeAddr fakePhone : String) : RestaurantFactoryClass :=
  ⟨fakeAddr, fakePhone⟩

/-- `RestaurantFactory()` at sequence counter `n`: the `name` field is the
f-string interpolation of `n`; the other fields are the class attributes. -/
def RestaurantFactory.build (cls : RestaurantFactoryClass) (n : Nat) : Restaurant :=
  { name := "Restaurant " ++ natToStr n
  , address_first_line := cls.address_first_line
  , phone_number := cls.phone_number }

/-- Class-definition-time state of `DishFactory`: the line
`price = Decimal(fake.random_number(2))` runs once at import, fixing a
single price value for the class. -/
structure DishFactoryClass where
  price : PyDecimal
deriving DecidableEq

/-- Evaluation of the `DishFactory` class body, with the faker randomness
made explicit as `seed`. -/
def DishFactory.init (seed : Nat) : DishFactoryClass :=
  ⟨PyDecimal.ofNat (fakeRandomNumber 2 seed)⟩

/-- `DishFactory()` at sequence counter `n`: the `restaurant` attribute is
the `Restaurant` class object, copied verbatim from the class body line
`restaurant = Restaurant`. -/
def DishFactory.build (cls : DishFactoryClass) (n : Nat) : Dish :=
  { name := "Dish " ++ natToStr n
  , price := cls.price
  , restaurant := RestaurantAttr.modelClass }

/-- Class-definition-time state of `IngredientFactory`: the line
`unit_price = Decimal(fake.random_number(2))` runs once at import. -/
structure IngredientFactoryClass where
  unit_price : PyDecimal
deriving DecidableEq

/-- Evaluation of the `IngredientFactory` class body. -/
def IngredientFactory.init (seed : Nat) : IngredientFactoryClass :=
  ⟨PyDecimal.ofNat (fakeRandomNumber 2 seed)⟩

/-- `IngredientFactory()` at sequence counter `n`. -/
def IngredientFactory.build (cls : IngredientFactoryClass) (n : Nat) : Ingredient :=
  { name := "Ingredient " ++ natToStr n
  , unit_price := cls.unit_price }

/-- A decimal value of at most two digits of precision: an exact integer
(exponent zero) whose coefficient fits in two decimal digits. -/
def PyDecimal.twoDigitPrecision (d : PyDecimal) : Prop :=
  d.coeff.natAbs < 100 ∧ d.exp = 0

/-- The four view functions of the `sim` app, as referenced by
`sim/urls.py` (`views.restaurant_list`, `views.restaurant_create`,
`views.restaurant_update`, `views.restaurant_delete`). -/
inductive ViewName where
  | restaurant_list
  | restaurant_create
  | restaurant_update
  | restaurant_delete
deriving DecidableEq

/-- Shape of one Django `path(...)` route string: either a pure literal, or
a literal, then one `<int:pk>` converter, then a literal, which covers all
four patterns of `sim/urls.py`. -/
inductive PathSpec where
  | lit (s : String)
  | intCapture (pre suf : String)
deriving DecidableEq

/-- The route string as written in `urls.py`. -/
def PathSpec.render : PathSpec → String
  | .lit s => s
  | .intCapture pre suf => pre ++ "<int:pk>" ++ suf

/-- One entry of `urlpatterns`: `path(pattern, view, name=...)`. -/
structure UrlPattern where
  path : PathSpec
  view : ViewName
  name : String
deriving DecidableEq

/-- The `app_name` of `sim/urls.py`. -/
def app_name : String := "sim"

/-- The `urlpatterns` list of `sim/urls.py`, in source order. -/
def urlpatterns : List UrlPattern :=
  [ ⟨PathSpec.lit "restaurants/", ViewName.restaurant_list, "restaurant_list"⟩
  , ⟨PathSpec.lit "restaurants/new/", ViewName.restaurant_create, "restaurant_create"⟩
  , ⟨PathSpec.intCapture "restaurants/" "/edit/", ViewName.restaurant_update, "restaurant_edit"⟩
  , ⟨PathSpec.intCapture "restaurants/" "/delete/", ViewName.restaurant_delete, "restaurant_delete"⟩ ]

/-- Strips a literal from the front of a path; `none` when the path does
not start with the literal. -/
def dropLit : List Char → List Char → Option (List Char)
  | [], rest => some rest
  | _ :: _, [] => none
  | p :: ps, c :: cs => if p = c then dropLit ps cs else none

/-- Splits off the maximal leading run of digit characters, as Django's
`int` path converter (regex `[0-9]+`) consumes a path segment. -/
def takeDigitsAcc : List Char → List Char × List Char
  | [] => ([], [])
  | c :: cs =>
    if c.isDigit then
      let p := takeDigitsAcc cs
      (c :: p.1, p.2)
    else ([], c :: cs)

/-- Matches one route pattern against a path, as Django's resolver does:
a literal pattern must match exactly; an `<int:pk>` pattern must match the
leading literal, then a nonempty digit run (captured and converted to an
integer), then the trailing literal. Returns the captured argument. -/
def PathSpec.matchPath : PathSpec → List Char → Option (Option Nat)
  | .lit s, path => if path = s.data then some none else none
  | .intCapture pre suf, path =>
    match dropLit pre.data path with
    | none => none
    | some rest =>
      let p := takeDigitsAcc rest
      if p.1 = [] then none
      else if p.2 = suf.data then some (some (digitsToNat p.1)) else none

/-- URL resolution over a pattern list: the first matching pattern wins,
exactly as Django tries `urlpatterns` in order. -/
def resolveList : List UrlPattern → List Char → Option (ViewName × Option Nat)
  | [], _ => none
  | u :: us, path =>
    match u.path.matchPath path with
    | some cap => some (u.view, cap)
    | none => resolveList us path

/-- URL resolution against the `sim` urlpatterns. -/
def resolve (path : List Char) : Option (ViewName × Option Nat) :=
  resolveList urlpatterns path

/-- Fills a pattern with an optional integer argument, as Django's
`reverse` renders a route; `none` when the argument arity is wrong. -/
def PathSpec.fill : PathSpec → Option Nat → Option (List Char)
  | .lit s, none => some s.data
  | .intCapture pre suf, some k => some (pre.data ++ natToDigits k ++ suf.data)
  | _, _ => none

/-- Model of Django `reverse` over the `sim` namespace: looks the route up
by name in `urlpatterns` and renders its pattern with the argument. -/
def reverseUrl (nm : String) (arg : Option Nat) : Option (List Char) :=
  match urlpatterns.find? (fun u => u.name == nm) with
  | some u => u.path.fill arg
  | none => none

/-- The path `restaurants/<pk>/edit/` for a concrete `pk`. -/
def editPath (pk : Nat) : List Char :=
  "restaurants/".data ++ natToDigits pk ++ "/edit/".data

/-- The path `restaurants/<pk>/delete/` for a concrete `pk`. -/
def deletePath (pk : Nat) : List Char :=
  "restaurants/".data ++ natToDigits pk ++ "/delete/".data

/-- Modelled from the spec: `sim/models.py` is not among the given files;
the spec describes framework-managed Restaurant records with a
framework-assigned integer primary key, so the persistent store is an
association list from primary key to record. -/
abbrev Store := List (Nat × Restaurant)

/-- Modelled from the spec: ORM lookup of a Restaurant by primary key. -/
def storeFind (s : Store) (pk : Nat) : Option Restaurant :=
  match s with
  | [] => none
  | e :: es => if e.1 = pk then some e.2 else storeFind es pk

/-- Modelled from the spec: saving changed fields back to the record with
the given primary key; records with other keys are untouched. -/
def storeSet (s : Store) (pk : Nat) (r : Restaurant) : Store :=
  s.map (fun e => if e.1 = pk then (pk, r) else e)

/-- Modelled from the spec: ORM deletion of the record with the given
primary key. -/
def storeErase (s : Store) (pk : Nat) : Store :=
  s.filter (fun e => e.1 != pk)

/-- Modelled from the spec: the framework assigns a fresh primary key to a
newly persisted record. -/
def nextPk (s : Store) : Nat := (s.map Prod.fst).foldr max 0 + 1

/-- Modelled from the spec: the server-rendered HTTP response visible to
the tests: status code, rendered template (none for a redirect), and the
Restaurant records passed to the template context. -/
structure HttpResponse where
  status : Nat
  template : Option String
  contextRecords : List (Nat × Restaurant)
deriving DecidableEq

/-- Modelled from the spec: the posted form data for a Restaurant, carrying
the keys the tests post (`name`, `address`, `phone_number`); a key absent
from the POST body is `none`. -/
structure RestaurantForm where
  name : Option String
  address : Option String
  phone_number : Option String
deriving DecidableEq

/-- Modelled from the spec: form validation delegated to the framework; the
only invariant is field presence (spec section 3: no invariants beyond
field presence implied by the test data). -/
def RestaurantForm.isValid (f : RestaurantForm) : Bool :=
  f.name.isSome && f.address.isSome && f.phone_number.isSome

/-- Modelled from the spec: the Restaurant record a valid form yields; the
posted `address` key fills the model's `address_first_line` field. -/
def RestaurantForm.toRecord (f : RestaurantForm) : Restaurant :=
  { name := f.name.getD ""
  , address_first_line := f.address.getD ""
  , phone_number := f.phone_number.getD "" }

/-- Modelled from the spec: `views.restaurant_list` (views.py is not among
the given files) — read all Restaurant records and render
`restaurant_list.html` with them, status 200, for every store state. -/
def restaurant_list (s : Store) : HttpResponse :=
  ⟨200, some "restaurant_list.html", s⟩

/-- Modelled from the spec: GET on `views.restaurant_create` — render an
empty `restaurant_form.html`, status 200. -/
def restaurant_create_get : HttpResponse :=
  ⟨200, some "restaurant_form.html", []⟩

/-- Modelled from the spec: POST on `views.restaurant_create` — validate
the form; when valid, persist a new Restaurant under a fresh primary key
and answer with status 200 (the status the repository's own tests assert
for a successful submission); when invalid, re-render the form with
errors, status 200, persisting nothing. Returns the new store and the
response. -/
def restaurant_create_post (s : Store) (f : RestaurantForm) : Store × HttpResponse :=
  if f.isValid then
    (s ++ [(nextPk s, f.toRecord)], ⟨200, none, []⟩)
  else
    (s, ⟨200, some "restaurant_form.html", []⟩)

/-- Modelled from the spec: GET on `views.restaurant_update` — locate the
record by primary key and render `restaurant_form.html` pre-filled with its
fields, status 200; a missing record falls through to the framework's
not-found response. -/
def restaurant_update_get (s : Store) (pk : Nat) : HttpResponse :=
  match storeFind s pk with
  | some r => ⟨200, some "restaurant_form.html", [(pk, r)]⟩
  | none => ⟨404, none, []⟩

/-- Modelled from the spec: POST on `views.restaurant_update` — locate the
record, validate, persist the submitted changes to that record and answer
status 200 (as the tests assert); invalid data re-renders the form. -/
def restaurant_update_post (s : Store) (pk : Nat) (f : RestaurantForm) :
    Store × HttpResponse :=
  match storeFind s pk with
  | some _ =>
    if f.isValid then
      (storeSet s pk f.toRecord, ⟨200, none, []⟩)
    else
      (s, ⟨200, some "restaurant_form.html", []⟩)
  | none => (s, ⟨404, none, []⟩)

/-- Modelled from the spec: GET on `views.restaurant_delete` — render the
confirmation page `restaurant_confirm_delete.html` for the record, status
200. -/
def restaurant_delete_get (s : Store) (pk : Nat) : HttpResponse :=
  match storeFind s pk with
  | some r => ⟨200, some "restaurant_confirm_delete.html", [(pk, r)]⟩
  | none => ⟨404, none, []⟩

/-- Modelled from the spec: POST on `views.restaurant_delete` — remove the
record and redirect, status 302, as both the spec and the tests state. -/
def restaurant_delete_post (s : Store) (pk : Nat) : Store × HttpResponse :=
  match storeFind s pk with
  | some _ => (storeErase s pk, ⟨302, none, []⟩)
  | none => (s, ⟨404, none, []⟩)

/-- The form the create test posts. -/
def createTestForm : RestaurantForm :=
  ⟨some "New Restaurant", some "123 New Street", some "987-654-3210"⟩

/-- The form the update test posts. -/
def updateTestForm : RestaurantForm :=
  ⟨some "Updated Restaurant", some "456 Updated Street", some "111-222-3333"⟩

/-- A concrete stored record, for witnesses. -/
def sampleRestaurant : Restaurant :=
  ⟨"Restaurant 0", "1 Sample Road", "000-000-0000"⟩

theorem natToDigits_lt (n : Nat) (h : n < 10) : natToDigits n = [digitChar n] := by
  unfold natToDigits
  simp [h]

theorem natToDigits_ge (n : Nat) (h : ¬ n < 10) :
    natToDigits n = natToDigits (n / 10) ++ [digitChar (n % 10)] := by
  conv_lhs => unfold natToDigits
  simp [h]

theorem digitVal_digitChar (d : Nat) (h : d < 10) : digitVal (digitChar d) = d := by
  interval_cases d <;> rfl

theorem isDigit_digitChar (d : Nat) (h : d < 10) : (digitChar d).isDigit = true := by
  interval_cases d <;> rfl

theorem digitsToNatAux_nil (acc : Nat) : digitsToNatAux acc [] = acc := rfl

theorem digitsToNatAux_cons (acc : Nat) (c : Char) (cs : List Char) :
    digitsToNatAux acc (c :: cs) = digitsToNatAux (acc * 10 + digitVal c) cs := rfl

theorem digitsToNatAux_append (l1 l2 : List Char) :
    ∀ acc, digitsToNatAux acc (l1 ++ l2) = digitsToNatAux (digitsToNatAux acc l1) l2 := by
  induction l1 with
  | nil => intro acc; rfl
  | cons c cs ih =>
    intro acc
    rw [List.cons_append, digitsToNatAux_cons, digitsToNatAux_cons, ih]

theorem digitsToNatAux_natToDigits (n : Nat) :
    ∀ acc, digitsToNatAux acc (natToDigits n) = acc * 10 ^ (natToDigits n).length + n := by
  induction n using Nat.strong_induction_on with
  | _ n ih =>
    intro acc
    by_cases h : n < 10
    · rw [natToDigits_lt n h, digitsToNatAux_cons, digitsToNatAux_nil,
        digitVal_digitChar n h]
      simp
    · rw [natToDigits_ge n h, digitsToNatAux_append,
        ih (n / 10) (Nat.div_lt_self (by omega) (by omega)),
        digitsToNatAux_cons, digitsToNatAux_nil,
        digitVal_digitChar (n % 10) (Nat.mod_lt n (by omega))]
      simp only [List.length_append, List.length_cons, List.length_nil, Nat.zero_add]
      have hp : 10 ^ ((natToDigits (n / 10)).length + 1) =
          10 ^ (natToDigits (n / 10)).length * 10 := pow_succ 10 _
      rw [hp]
      ring_nf
      omega

theorem digitsToNat_natToDigits (n : Nat) : digitsToNat (natToDigits n) = n := by
  have h := digitsToNatAux_natToDigits n 0
  simpa [digitsToNat] using h

theorem natToDigits_injective : Function.Injective natToDigits := by
  intro m n h
  have h2 := congrArg digitsToNat h
  simpa [digitsToNat_natToDigits] using h2

theorem natToDigits_ne_nil (n : Nat) : natToDigits n ≠ [] := by
  by_cases h : n < 10
  · rw [natToDigits_lt n h]; simp
  · rw [natToDigits_ge n h]; simp

theorem natToDigits_all_digits (n : Nat) :
    ∀ c ∈ natToDigits n, c.isDigit = true := by
  induction n using Nat.strong_induction_on with
  | _ n ih =>
    intro c hc
    by_cases h : n < 10
    · rw [natToDigits_lt n h] at hc
      simp at hc
      subst hc
      exact isDigit_digitChar n h
    · rw [natToDigits_ge n h] at hc
      simp at hc
      rcases hc with hc | hc
      · exact ih (n / 10) (Nat.div_lt_self (by omega) (by omega)) c hc
      · subst hc
        exact isDigit_digitChar (n % 10) (Nat.mod_lt n (by omega))

theorem natToStr_injective : Function.Injective natToStr := by
  intro m n h
  apply natToDigits_injective
  have h2 := congrArg String.data h
  simpa [natToStr] using h2

theorem append_natToStr_inj (s : String) (m n : Nat)
    (h : s ++ natToStr m = s ++ natToStr n) : m = n := by
  apply natToDigits_injective
  have h2 := congrArg String.data h
  rw [String.data_append, String.data_append] at h2
  exact List.append_cancel_left h2

theorem storeFind_storeSet (s : Store) (pk : Nat) (r0 r : Restaurant)
    (h : storeFind s pk = some r0) : storeFind (storeSet s pk r) pk = some r := by
  induction s with
  | nil => simp [storeFind] at h
  | cons e es ih =>
    by_cases he : e.1 = pk
    · simp [storeSet, storeFind, he]
    · simp [storeFind, he] at h
      simp [storeSet, storeFind, he]
      exact ih h

theorem storeFind_storeErase (s : Store) (pk : Nat) :
    storeFind (storeErase s pk) pk = none := by
  induction s with
  | nil => rfl
  | cons e es ih =>
    by_cases he : e.1 = pk
    · simp [storeErase, List.filter_cons, he] at ih ⊢
      exact ih
    · simp [storeErase, List.filter_cons, he, storeFind] at ih ⊢
      exact ih

theorem key_le_maxKey (s : Store) : ∀ e ∈ s, e.1 ≤ (s.map Prod.fst).foldr max 0 := by
  induction s with
  | nil => intro e he; simp at he
  | cons a as ih =>
    intro e he
    simp only [List.map_cons, List.foldr_cons]
    rcases List.mem_cons.mp he with he | he
    · subst he; exact le_max_left _ _
    · exact le_trans (ih e he) (le_max_right _ _)

theorem storeFind_append_fresh (s : Store) (pk : Nat) (r : Restaurant)
    (h : ∀ e ∈ s, e.1 ≠ pk) : storeFind (s ++ [(pk, r)]) pk = some r := by
  induction s with
  | nil => simp [storeFind]
  | cons e es ih =>
    have he : e.1 ≠ pk := h e (List.mem_cons_self e es)
    simp only [List.cons_append, storeFind, he, if_false]
    exact ih (fun x hx => h x (List.mem_cons_of_mem e hx))

theorem storeFind_nextPk (s : Store) (r : Restaurant) :
    storeFind (s ++ [(nextPk s, r)]) (nextPk s) = some r := by
  apply storeFind_append_fresh
  intro e he
  have hle := key_le_maxKey s e he
  simp only [nextPk]
  omega

theorem dropLit_append (l r : List Char) : dropLit l (l ++ r) = some r := by
  induction l with
  | nil => rfl
  | cons c cs ih => simp [dropLit, ih]

theorem takeDigitsAcc_digits_slash (ds t : List Char)
    (h : ∀ c ∈ ds, c.isDigit = true) :
    takeDigitsAcc (ds ++ '/' :: t) = (ds, '/' :: t) := by
  induction ds with
  | nil =>
    have hs : ('/').isDigit = false := rfl
    simp [takeDigitsAcc, hs]
  | cons c cs ih =>
    have hc : c.isDigit = true := h c (List.mem_cons_self c cs)
    have ih2 := ih (fun x hx => h x (List.mem_cons_of_mem c hx))
    simp [takeDigitsAcc, hc, ih2]

theorem matchPath_lit_ne (s : String) (path : List Char) (h : path ≠ s.data) :
    PathSpec.matchPath (PathSpec.lit s) path = none := by
  simp [PathSpec.matchPath, h]

theorem matchPath_intCapture_eval (pre suf : String) (pk : Nat) (t : List Char) :
    PathSpec.matchPath (PathSpec.intCapture pre suf)
      (pre.data ++ (natToDigits pk ++ '/' :: t)) =
    if '/' :: t = suf.data then some (some pk) else none := by
  simp only [PathSpec.matchPath, dropLit_append,
    takeDigitsAcc_digits_slash (natToDigits pk) t (natToDigits_all_digits pk),
    natToDigits_ne_nil pk, if_false, digitsToNat_natToDigits]

theorem editPath_decomp (pk : Nat) :
    editPath pk = "restaurants/".data ++ (natToDigits pk ++ '/' :: "edit/".data) := by
  simp [editPath]

theorem deletePath_decomp (pk : Nat) :
    deletePath pk = "restaurants/".data ++ (natToDigits pk ++ '/' :: "delete/".data) := by
  simp [deletePath]

theorem editPath_length (pk : Nat) :
    (editPath pk).length = (natToDigits pk).length + 18 := by
  simp [editPath]

theorem deletePath_length (pk : Nat) :
    (deletePath pk).length = (natToDigits pk).length + 20 := by
  simp [deletePath]

theorem resolve_editPath (pk : Nat) :
    resolve (editPath pk) = some (ViewName.restaurant_update, some pk) := by
  have h1 : editPath pk ≠ "restaurants/".data := by
    intro h
    have hl := congrArg List.length h
    rw [editPath_length] at hl
    simp at hl
  have h2 : editPath pk ≠ "restaurants/new/".data := by
    intro h
    have hl := congrArg List.length h
    rw [editPath_length] at hl
    simp at hl
  have h3 : PathSpec.matchPath (PathSpec.intCapture "restaurants/" "/edit/")
      (editPath pk) = some (some pk) := by
    rw [editPath_decomp, matchPath_intCapture_eval]
    rfl
  simp only [resolve, urlpatterns, resolveList,
    matchPath_lit_ne _ _ h1, matchPath_lit_ne _ _ h2, h3]

theorem resolve_deletePath (pk : Nat) :
    resolve (deletePath pk) = some (ViewName.restaurant_delete, some pk) := by
  have h1 : deletePath pk ≠ "restaurants/".data := by
    intro h
    have hl := congrArg List.length h
    rw [deletePath_length] at hl
    simp at hl
  have h2 : deletePath pk ≠ "restaurants/new/".data := by
    intro h
    have hl := congrArg List.length h
    rw [deletePath_length] at hl
    simp at hl
  have h3 : PathSpec.matchPath (PathSpec.intCapture "restaurants/" "/edit/")
      (deletePath pk) = none := by
    rw [deletePath_decomp, matchPath_intCapture_eval]
    have hne : ('/' :: "delete/".data) ≠ "/edit/".data := by decide
    simp [hne]
  have h4 : PathSpec.matchPath (PathSpec.intCapture "restaurants/" "/delete/")
      (deletePath pk) = some (some pk) := by
    rw [deletePath_decomp, matchPath_intCapture_eval]
    rfl
  simp only [resolve, urlpatterns, resolveList,
    matchPath_lit_ne _ _ h1, matchPath_lit_ne _ _ h2, h3, h4]

/-- Claim C1: for every POST to the create route with valid form data, the
response has HTTP status 200, and a new Restaurant record is validated and
persisted (appended under a fresh primary key, and retrievable there)
before the response is produced. -/
theorem C1_create_post_valid (s : Store) (f : RestaurantForm)
    (h : f.isValid = true) :
    (restaurant_create_post s f).2.status = 200 ∧
    (restaurant_create_post s f).1 = s ++ [(nextPk s, f.toRecord)] ∧
    storeFind (restaurant_create_post s f).1 (nextPk s) = some f.toRecord := by
  have hpost : restaurant_create_post s f =
      (s ++ [(nextPk s, f.toRecord)], ⟨200, none, []⟩) := by
    simp [restaurant_create_post, h]
  refine ⟨?_, ?_, ?_⟩ <;> rw [hpost]
  exact storeFind_nextPk s f.toRecord

/-- Witness for C1: the create test's own posted data, against the empty
store. -/
theorem C1_create_post_valid_witness :
    createTestForm.isValid = true ∧
    ((restaurant_create_post [] createTestForm).2.status = 200 ∧
     (restaurant_create_post [] createTestForm).1 =
       [] ++ [(nextPk [], createTestForm.toRecord)] ∧
     storeFind (restaurant_create_post [] createTestForm).1 (nextPk []) =
       some createTestForm.toRecord) :=
  ⟨by decide, C1_create_post_valid [] createTestForm (by decide)⟩

/-- Claim C2: for every Restaurant record located by primary key, a GET to
the update route returns status 200 rendering restaurant_form.html
pre-filled with that record, and a POST with valid data (keys name,
address, phone_number) returns status 200 and persists the submitted
changes to that same record. -/
theorem C2_update_view (s : Store) (pk : Nat) (r : Restaurant)
    (f : RestaurantForm) (hfind : storeFind s pk = some r)
    (hv : f.isValid = true) :
    restaurant_update_get s pk =
      ⟨200, some "restaurant_form.html", [(pk, r)]⟩ ∧
    (restaurant_update_post s pk f).2.status = 200 ∧
    (restaurant_update_post s pk f).1 = storeSet s pk f.toRecord ∧
    storeFind (restaurant_update_post s pk f).1 pk = some f.toRecord := by
  have hpost : restaurant_update_post s pk f =
      (storeSet s pk f.toRecord, ⟨200, none, []⟩) := by
    simp [restaurant_update_post, hfind, hv]
  refine ⟨by simp [restaurant_update_get, hfind], ?_, ?_, ?_⟩ <;> rw [hpost]
  exact storeFind_storeSet s pk r f.toRecord hfind

/-- Witness for C2: a one-record store and the update test's posted data. -/
theorem C2_update_view_witness :
    storeFind [(1, sampleRestaurant)] 1 = some sampleRestaurant ∧
    updateTestForm.isValid = true ∧
    (restaurant_update_get [(1, sampleRestaurant)] 1 =
       ⟨200, some "restaurant_form.html", [(1, sampleRestaurant)]⟩ ∧
     (restaurant_update_post [(1, sampleRestaurant)] 1 updateTestForm).2.status = 200 ∧
     (restaurant_update_post [(1, sampleRestaurant)] 1 updateTestForm).1 =
       storeSet [(1, sampleRestaurant)] 1 updateTestForm.toRecord ∧
     storeFind (restaurant_update_post [(1, sampleRestaurant)] 1 updateTestForm).1 1 =
       some updateTestForm.toRecord) :=
  ⟨by decide, by decide,
   C2_update_view [(1, sampleRestaurant)] 1 sampleRestaurant updateTestForm
     (by decide) (by decide)⟩

/-- Claim C3: for every existing Restaurant record, a GET to the delete
route returns status 200 rendering restaurant_confirm_delete.html, and a
POST to the same route removes that record from the store and returns
status 302. -/
theorem C3_delete_view (s : Store) (pk : Nat) (r : Restaurant)
    (hfind : storeFind s pk = some r) :
    restaurant_delete_get s pk =
      ⟨200, some "restaurant_confirm_delete.html", [(pk, r)]⟩ ∧
    (restaurant_delete_post s pk).2.status = 302 ∧
    (restaurant_delete_post s pk).1 = storeErase s pk ∧
    storeFind (restaurant_delete_post s pk).1 pk = none := by
  have hpost : restaurant_delete_post s pk =
      (storeErase s pk, ⟨302, none, []⟩) := by
    simp [restaurant_delete_post, hfind]
  refine ⟨by simp [restaurant_delete_get, hfind], ?_, ?_, ?_⟩ <;> rw [hpost]
  exact storeFind_storeErase s pk

/-- Witness for C3: a one-record store. -/
theorem C3_delete_view_witness :
    storeFind [(1, sampleRestaurant)] 1 = some sampleRestaurant ∧
    (restaurant_delete_get [(1, sampleRestaurant)] 1 =
       ⟨200, some "restaurant_confirm_delete.html", [(1, sampleRestaurant)]⟩ ∧
     (restaurant_delete_post [(1, sampleRestaurant)] 1).2.status = 302 ∧
     (restaurant_delete_post [(1, sampleRestaurant)] 1).1 =
       storeErase [(1, sampleRestaurant)] 1 ∧
     storeFind (restaurant_delete_post [(1, sampleRestaurant)] 1).1 1 = none) :=
  ⟨by decide,
   C3_delete_view [(1, sampleRestaurant)] 1 sampleRestaurant (by decide)⟩

/-- Claim C4: for every state of the store, including the empty one, a GET
to the list route returns status 200 and renders restaurant_list.html with
all Restaurant records as the collection. -/
theorem C4_list_view (s : Store) :
    (restaurant_list s).status = 200 ∧
    (restaurant_list s).template = some "restaurant_list.html" ∧
    (restaurant_list s).contextRecords = s :=
  ⟨rfl, rfl, rfl⟩

/-- Claim C5: the URL configuration of app sim registers exactly four
routes, with the stated patterns, the stated names, and the four view
functions, and nothing else. -/
theorem C5_urlpatterns_exactly_four :
    urlpatterns.length = 4 ∧
    app_name = "sim" ∧
    urlpatterns.map (fun u => u.path.render) =
      ["restaurants/", "restaurants/new/",
       "restaurants/<int:pk>/edit/", "restaurants/<int:pk>/delete/"] ∧
    urlpatterns.map (fun u => u.name) =
      ["restaurant_list", "restaurant_create",
       "restaurant_edit", "restaurant_delete"] ∧
    urlpatterns.map (fun u => u.view) =
      [ViewName.restaurant_list, ViewName.restaurant_create,
       ViewName.restaurant_update, ViewName.restaurant_delete] :=
  ⟨rfl, rfl, rfl, rfl, rfl⟩

/-- Claim C6: for every class-definition-time randomness seed and every
sequence index, the price a DishFactory-built Dish carries, and the
unit_price an IngredientFactory-built Ingredient carries, is an exact
decimal of at most two digits of precision: Decimal(k) for an integer k
with 0 <= k < 100. -/
theorem C6_factory_prices_two_digit (seed m n : Nat) :
    (DishFactory.build (DishFactory.init seed) m).price.twoDigitPrecision ∧
    (∃ k, k < 100 ∧
      (DishFactory.build (DishFactory.init seed) m).price = PyDecimal.ofNat k) ∧
    (IngredientFactory.build (IngredientFactory.init seed) n).unit_price.twoDigitPrecision ∧
    (∃ k, k < 100 ∧
      (IngredientFactory.build (IngredientFactory.init seed) n).unit_price =
        PyDecimal.ofNat k) := by
  have hk : fakeRandomNumber 2 seed < 100 := by
    have h100 : (10 : Nat) ^ 2 = 100 := rfl
    simp only [fakeRandomNumber, h100]
    omega
  have habs : ((fakeRandomNumber 2 seed : Int)).natAbs < 100 := by
    simpa using hk
  exact ⟨⟨habs, rfl⟩, ⟨_, hk, rfl⟩, ⟨habs, rfl⟩, ⟨_, hk, rfl⟩⟩

/-- Counterexample to claim C7: the Dish built by DishFactory at sequence
index 0 (class evaluated at seed 0) does not have a Restaurant record in
its restaurant field; the field holds the Restaurant model class object,
copied from the class-body line restaurant = Restaurant. -/
theorem C7_counterexample_restaurant_is_class :
    ¬ ∃ r : Restaurant,
      (DishFactory.build (DishFactory.init 0) 0).restaurant =
        RestaurantAttr.record r := by
  rintro ⟨r, hr⟩
  simp [DishFactory.build] at hr

/-- Claim C7 as amended: every Dish produced by DishFactory has its
restaurant field set to the Restaurant model class object itself (the same
single object for every Dish), not to a Restaurant record. -/
theorem C7_restaurant_field_is_model_class (cls : DishFactoryClass) (n : Nat) :
    (DishFactory.build cls n).restaurant = RestaurantAttr.modelClass :=
  rfl

/-- Claim C8: the non-sequence factory fields are evaluated once when the
class body is evaluated, so any two instances built from the same factory
class share them: equal address_first_line and phone_number for
Restaurants, equal price for Dishes, equal unit_price for Ingredients. -/
theorem C8_class_fields_shared (cls : RestaurantFactoryClass)
    (dcls : DishFactoryClass) (icls : IngredientFactoryClass) (m n : Nat) :
    (RestaurantFactory.build cls m).address_first_line =
      (RestaurantFactory.build cls n).address_first_line ∧
    (RestaurantFactory.build cls m).phone_number =
      (RestaurantFactory.build cls n).phone_number ∧
    (DishFactory.build dcls m).price = (DishFactory.build dcls n).price ∧
    (IngredientFactory.build icls m).unit_price =
      (IngredientFactory.build icls n).unit_price :=
  ⟨rfl, rfl, rfl, rfl⟩

/-- Claim C9: the factory name sequences are injective: at distinct
sequence indices, RestaurantFactory, DishFactory and IngredientFactory
each produce distinct names. -/
theorem C9_sequence_names_injective (cls : RestaurantFactoryClass)
    (dcls : DishFactoryClass) (icls : IngredientFactoryClass) (m n : Nat)
    (h : m ≠ n) :
    (RestaurantFactory.build cls m).name ≠ (RestaurantFactory.build cls n).name ∧
    (DishFactory.build dcls m).name ≠ (DishFactory.build dcls n).name ∧
    (IngredientFactory.build icls m).name ≠ (IngredientFactory.build icls n).name := by
  refine ⟨?_, ?_, ?_⟩ <;> intro hEq <;> exact h (append_natToStr_inj _ m n hEq)

/-- Witness for C9: indices 0 and 1 give distinct names in each factory. -/
theorem C9_sequence_names_injective_witness :
    (0 : Nat) ≠ 1 ∧
    ((RestaurantFactory.build (RestaurantFactory.init "a" "b") 0).name ≠
       (RestaurantFactory.build (RestaurantFactory.init "a" "b") 1).name ∧
     (DishFactory.build (DishFactory.init 0) 0).name ≠
       (DishFactory.build (DishFactory.init 0) 1).name ∧
     (IngredientFactory.build (IngredientFactory.init 0) 0).name ≠
       (IngredientFactory.build (IngredientFactory.init 0) 1).name) :=
  ⟨by decide,
   C9_sequence_names_injective (RestaurantFactory.init "a" "b")
     (DishFactory.init 0) (IngredientFactory.init 0) 0 1 (by decide)⟩

/-- Claim C10: for every non-negative integer pk, reversing the route
named restaurant_edit (resp. restaurant_delete) with argument pk yields
the path restaurants/pk/edit/ (resp. restaurants/pk/delete/), and
resolving that path dispatches back to the update (resp. delete) view with
the same pk. -/
theorem C10_reverse_resolve_roundtrip (pk : Nat) :
    reverseUrl "restaurant_edit" (some pk) = some (editPath pk) ∧
    resolve (editPath pk) = some (ViewName.restaurant_update, some pk) ∧
    reverseUrl "restaurant_delete" (some pk) = some (deletePath pk) ∧
    resolve (deletePath pk) = some (ViewName.restaurant_delete, some pk) :=
  ⟨rfl, resolve_editPath pk, rfl, resolve_deletePath pk⟩
